import Mathlib

/-!
Shallow embedding of the Motia workflow engine
(`src/backend/src/motia/motia.ts` of the repository, together with the type
declarations of `types/workflow.ts`).

Modelling conventions:
* JavaScript `Date` values are modelled by a logical clock: every `new Date()`
  consumes one tick of a `Nat` counter threaded through the state.
* Opaque JS values (step inputs, outputs, signal payloads) are modelled by the
  inductive type `Val`; `Val.undef` is `undefined`, `Val.emptyObj` is `{ }`,
  and `Val.withTimestamp d t` models the spread `{ ...data, timestamp }`
  performed by `signalWorkflow`.
* A step handler is a pure function from its invocation context (input, ids,
  attempt number and the current workflow-state bag that `getState` reads) to
  an outcome: either a returned `StepResult` or a thrown error message,
  together with the `context.log` entries and `context.setState` writes it
  performed before finishing.
* The persistent store (`database.saveWorkflow` / `getWorkflow`) is a
  by-value key-value map from execution id to execution record, mirroring the
  SQLite-backed `DatabaseService` (rows are serialized, so saved snapshots do
  not alias the in-memory record).
* `startWorkflow` runs the (in the source: asynchronous) `executeWorkflow`
  call to completion, including the `.catch` handler attached to it; the
  sequential model returns the final state reached by that invocation.
* `sleep` calls are recorded as a trace of requested durations.
* The number of handler invocations performed by the retry loop is recorded
  in the ghost field `calls`.
-/

/-- Opaque JavaScript values flowing through the engine. -/
inductive Val : Type where
  | undef : Val
  | emptyObj : Val
  | nat : Nat → Val
  | str : String → Val
  | withTimestamp : Val → Nat → Val
  deriving DecidableEq, Repr

/-- JavaScript truthiness for the modelled values (`undefined`, `0` and `""`
are falsy; objects are truthy). -/
def Val.truthy : Val → Bool
  | .undef => false
  | .emptyObj => true
  | .nat n => n != 0
  | .str s => s != ""
  | .withTimestamp _ _ => true

/-- JavaScript `a || b`. -/
def jsOr (a b : Val) : Val := if a.truthy then a else b

/-- One entry of `StepExecution.logs` (`LogEntry` in `types/workflow.ts`). -/
structure LogEntry where
  timestamp : Nat
  message : String
  data : Option Val
  deriving DecidableEq, Repr

/-- Status of a `StepExecution`. -/
inductive StepStatus : Type where
  | pending | running | retrying | completed | failed
  deriving DecidableEq, Repr

/-- Status of a `WorkflowExecution`. -/
inductive WfStatus : Type where
  | running | paused | completed | failed
  deriving DecidableEq, Repr

/-- `StepExecution` of `types/workflow.ts`. -/
structure StepExecution where
  stepId : String
  status : StepStatus
  attempts : Nat
  startedAt : Option Nat
  completedAt : Option Nat
  error : Option String
  output : Option Val
  logs : List LogEntry
  deriving DecidableEq, Repr

/-- `WorkflowExecution` of `types/workflow.ts`. -/
structure WorkflowExecution where
  id : String
  workflowId : String
  status : WfStatus
  currentStep : Option String
  startedAt : Nat
  completedAt : Option Nat
  steps : List StepExecution
  deriving DecidableEq, Repr

/-- `retryPolicy` of a `StepDefinition`; both fields are optional in the
source type. -/
structure RetryPolicy where
  maxAttempts : Option Nat
  backoffMs : Option Nat
  deriving DecidableEq, Repr

/-- `StepResult` returned by a handler (`output` plus the unused `next`). -/
structure StepResult where
  output : Val
  next : Option String
  deriving DecidableEq, Repr

/-- The invocation context a handler observes: `input`, `stepId`,
`workflowId`, `attempt`, and the workflow-state bag its `getState` reads. -/
structure HandlerCtx where
  input : Val
  stepId : String
  workflowId : String
  attempt : Nat
  state : List (String × Val)

/-- What one handler invocation did: its outcome (return or throw), its
`context.log` calls (message, data) in order, and its `context.setState`
writes in order. -/
structure HandlerResult where
  out : Except String StepResult
  logs : List (String × Option Val)
  writes : List (String × Val)

/-- A step handler as a pure function. -/
def Handler : Type := HandlerCtx → HandlerResult

/-- `StepDefinition` of `types/workflow.ts`. -/
structure StepDefinition where
  id : String
  name : String
  handler : Handler
  retryPolicy : Option RetryPolicy

/-- `WorkflowDefinition` of `types/workflow.ts`. -/
structure WorkflowDefinition where
  id : String
  name : String
  steps : List StepDefinition

/-- Lookup in a JS `Map` modelled as an association list. -/
def MapGet {α : Type} : List (String × α) → String → Option α
  | [], _ => none
  | p :: t, k => if p.1 == k then some p.2 else MapGet t k

/-- `Map.set`: replace the entry for an existing key in place, otherwise
append a new entry. -/
def MapSet {α : Type} : List (String × α) → String → α → List (String × α)
  | [], k, v => [(k, v)]
  | p :: t, k, v => if p.1 == k then (k, v) :: t else p :: MapSet t k v

/-- The global `workflowState : Map<string, Map<string, any>>`. -/
def WStates : Type := List (String × List (String × Val))

/-- `getWorkflowState`: the inner bag for one workflow id (missing map reads
as empty). -/
def bagOf (ws : WStates) (workflowId : String) : List (String × Val) :=
  (MapGet ws workflowId).getD []

/-- `setWorkflowState`: create the inner map if missing, then set the key. -/
def setWState (ws : WStates) (workflowId key : String) (v : Val) : WStates :=
  MapSet ws workflowId (MapSet (bagOf ws workflowId) key v)

/-- The in-process state of `MotiaRuntime` plus the persistent store and the
logical clock. -/
structure Runtime where
  stepDefinitions : List (String × StepDefinition)
  workflowDefinitions : List (String × WorkflowDefinition)
  workflowState : WStates
  db : List (String × WorkflowExecution)
  clock : Nat

/-- `registerStep`: unconditionally `Map.set` by id. -/
def registerStep (rt : Runtime) (sd : StepDefinition) : Runtime :=
  { rt with stepDefinitions := MapSet rt.stepDefinitions sd.id sd }

/-- `registerWorkflow`: unconditionally `Map.set` by id. -/
def registerWorkflow (rt : Runtime) (wd : WorkflowDefinition) : Runtime :=
  { rt with workflowDefinitions := MapSet rt.workflowDefinitions wd.id wd }

/-- `database.saveWorkflow`: upsert keyed by execution id. -/
def saveWf (rt : Runtime) (exec : WorkflowExecution) : Runtime :=
  { rt with db := MapSet rt.db exec.id exec }

/-- `getWorkflow`. -/
def getWorkflow (rt : Runtime) (workflowId : String) : Option WorkflowExecution :=
  MapGet rt.db workflowId

/-- Does `pat` start the list `l`? -/
def startsWith : List Char → List Char → Bool
  | _, [] => true
  | [], _ :: _ => false
  | a :: as, b :: bs => a == b && startsWith as bs

/-- Contiguous substring test on character lists. -/
def hasSub : List Char → List Char → Bool
  | [], pat => startsWith [] pat
  | a :: t, pat => startsWith (a :: t) pat || hasSub t pat

/-- JavaScript `String.prototype.includes`. -/
def strIncludes (s pat : String) : Bool := hasSub s.data pat.data

/-- The distinguished marker the engine looks for in error messages. -/
def pauseMarker : String := "WORKFLOW_PAUSED_WAITING_FOR_SIGNAL"

/-- `errorMessage.includes('WORKFLOW_PAUSED_WAITING_FOR_SIGNAL')`. -/
def pauseDetect (msg : String) : Bool := strIncludes msg pauseMarker

/-- Turn the log calls of a handler into `LogEntry` values, one clock tick
each (`logStep` calls `new Date()` per entry). -/
def mkEntries (clock : Nat) : List (String × Option Val) → List LogEntry
  | [] => []
  | (m, d) :: rest => ⟨clock, m, d⟩ :: mkEntries (clock + 1) rest

/-- Apply the `setState` writes of a handler in order. -/
def applyWrites (ws : WStates) (workflowId : String) : List (String × Val) → WStates
  | [] => ws
  | (k, v) :: rest => applyWrites (setWState ws workflowId k v) workflowId rest

/-- Result of `executeStepWithRetry`: the updated step execution, the updated
global workflow state, the clock, the trace of `sleep` durations, the number
of handler invocations (ghost), and the returned result or thrown error. -/
structure StepRunOut where
  se : StepExecution
  ws : WStates
  clock : Nat
  sleeps : List Nat
  calls : Nat
  result : Except String StepResult

/-- `Attempt k/max` log message. -/
def attemptMsg (attempt maxAttempts : Nat) : String :=
  s!"Attempt {attempt}/{maxAttempts}"

/-- `Attempt k failed: msg` log message. -/
def attemptFailedMsg (attempt : Nat) (msg : String) : String :=
  s!"Attempt {attempt} failed: {msg}"

/-- The `for (let attempt = 1; attempt <= maxAttempts; attempt++)` loop of
`executeStepWithRetry`, with `remaining` attempts left; the attempt number of
the iteration at `remaining = r + 1` is `maxA - r`.  The base case is the
fall-through after loop exhaustion: mark the step failed and rethrow the last
error (or the fallback error when no attempt ever ran). -/
def retryFrom (sd : StepDefinition) (wfId : String) (input : Val) (maxA backoff : Nat) :
    Nat → StepExecution → WStates → Nat → List Nat → Nat → Option String → StepRunOut
  | 0, se, ws, clock, sleeps, calls, lastErr =>
      ⟨{ se with status := .failed, completedAt := some clock }, ws, clock + 1, sleeps, calls,
        .error (lastErr.getD "Step failed after all retries")⟩
  | r + 1, se, ws, clock, sleeps, calls, lastErr =>
      let attempt := maxA - r
      let se1 : StepExecution :=
        { se with attempts := attempt,
                  status := if attempt = 1 then .running else .retrying,
                  startedAt := some clock }
      let se2 : StepExecution :=
        { se1 with logs := se1.logs ++ [⟨clock + 1, attemptMsg attempt maxA, none⟩] }
      let hr := sd.handler ⟨input, sd.id, wfId, attempt, bagOf ws wfId⟩
      let se3 : StepExecution := { se2 with logs := se2.logs ++ mkEntries (clock + 2) hr.logs }
      let clock3 := clock + 2 + hr.logs.length
      let ws1 := applyWrites ws wfId hr.writes
      match hr.out with
      | .ok result =>
          let se4 : StepExecution :=
            { se3 with status := .completed, completedAt := some clock3,
                       output := some result.output,
                       logs := se3.logs ++ [⟨clock3 + 1, "Step completed successfully", none⟩] }
          ⟨se4, ws1, clock3 + 2, sleeps, calls + 1, .ok result⟩
      | .error msg =>
          if pauseDetect msg then
            let se4 : StepExecution :=
              { se3 with status := .running, error := none,
                         logs := se3.logs ++ [⟨clock3, "Workflow paused, waiting for signal", none⟩] }
            ⟨se4, ws1, clock3 + 1, sleeps, calls + 1, .error msg⟩
          else
            let se4 : StepExecution :=
              { se3 with error := some msg,
                         logs := se3.logs ++ [⟨clock3, attemptFailedMsg attempt msg, none⟩] }
            let sleeps1 := if attempt < maxA then sleeps ++ [backoff * attempt] else sleeps
            retryFrom sd wfId input maxA backoff r se4 ws1 (clock3 + 1) sleeps1 (calls + 1) (some msg)

/-- `stepDef.retryPolicy?.maxAttempts ?? 3`. -/
def maxAttemptsOf (sd : StepDefinition) : Nat :=
  ((sd.retryPolicy.bind RetryPolicy.maxAttempts).getD 3)

/-- `stepDef.retryPolicy?.backoffMs ?? 1000`. -/
def backoffMsOf (sd : StepDefinition) : Nat :=
  ((sd.retryPolicy.bind RetryPolicy.backoffMs).getD 1000)

/-- `executeStepWithRetry` of `MotiaRuntime`. -/
def executeStepWithRetry (sd : StepDefinition) (se : StepExecution) (workflowId : String)
    (input : Val) (ws : WStates) (clock : Nat) : StepRunOut :=
  retryFrom sd workflowId input (maxAttemptsOf sd) (backoffMsOf sd)
    (maxAttemptsOf sd) se ws clock [] 0 none

/-- The `for (const stepDef of workflowDef.steps)` loop of `executeWorkflow`,
including the `catch` around the `executeStepWithRetry` call and the
post-loop completion block. -/
def execSteps (rt : Runtime) (steps : List StepDefinition) (exec : WorkflowExecution)
    (input : Val) : Runtime × WorkflowExecution × Except String Unit :=
  match steps with
  | [] =>
      let exec1 : WorkflowExecution :=
        { exec with status := .completed, completedAt := some rt.clock, currentStep := none }
      (saveWf { rt with clock := rt.clock + 1 } exec1, exec1, .ok ())
  | sd :: rest =>
      match exec.steps.find? (fun s => s.stepId == sd.id) with
      | none => execSteps rt rest exec input
      | some se =>
          if se.status = .completed then
            execSteps rt rest exec (se.output.getD .undef)
          else
            let exec1 : WorkflowExecution := { exec with currentStep := some sd.id }
            let rt1 := saveWf rt exec1
            let r := executeStepWithRetry sd se exec1.id input rt1.workflowState rt1.clock
            let exec2 : WorkflowExecution :=
              { exec1 with steps := exec1.steps.map (fun s => if s.stepId == sd.id then r.se else s) }
            let rt2 : Runtime := { rt1 with workflowState := r.ws, clock := r.clock }
            match r.result with
            | .ok result =>
                if r.se.status = .failed then
                  let exec3 : WorkflowExecution := { exec2 with status := .failed }
                  (saveWf rt2 exec3, exec3, .ok ())
                else if r.se.status = .running
                    && r.se.logs.any (fun l => pauseDetect l.message) then
                  let exec3 : WorkflowExecution := { exec2 with status := .paused }
                  (saveWf rt2 exec3, exec3, .ok ())
                else
                  execSteps rt2 rest exec2 result.output
            | .error msg =>
                if pauseDetect msg then
                  let exec3 : WorkflowExecution := { exec2 with status := .paused }
                  (saveWf rt2 exec3, exec3, .ok ())
                else
                  (rt2, exec2, .error msg)

/-- `executeWorkflow` of `MotiaRuntime`: resolve the definition (silently
return when absent), clear `currentStep`, then run the step loop. -/
def executeWorkflow (rt : Runtime) (exec : WorkflowExecution) (input : Val) :
    Runtime × WorkflowExecution × Except String Unit :=
  match MapGet rt.workflowDefinitions exec.workflowId with
  | none => (rt, exec, .ok ())
  | some wd => execSteps rt wd.steps { exec with currentStep := none } input

/-- `startWorkflow` of `MotiaRuntime`: resolve the definition (throw when
absent), build a fresh all-pending execution, persist it, run
`executeWorkflow` and apply its `.catch` handler (mark failed unless the
error is a pause marker).  `newId` stands for the generated uuid. -/
def startWorkflow (rt : Runtime) (workflowId : String) (initialInput : Val) (newId : String) :
    Runtime × Except String WorkflowExecution :=
  match MapGet rt.workflowDefinitions workflowId with
  | none => (rt, .error s!"Workflow {workflowId} not found")
  | some wd =>
      let exec : WorkflowExecution :=
        { id := newId, workflowId := workflowId, status := .running, currentStep := none,
          startedAt := rt.clock, completedAt := none,
          steps := wd.steps.map (fun s =>
            { stepId := s.id, status := .pending, attempts := 0, startedAt := none,
              completedAt := none, error := none, output := none, logs := [] }) }
      let rt1 := saveWf { rt with clock := rt.clock + 1 } exec
      let out := executeWorkflow rt1 exec initialInput
      match out.2.2 with
      | .ok _ => (out.1, .ok out.2.1)
      | .error msg =>
          if pauseDetect msg then (out.1, .ok out.2.1)
          else
            let exec3 : WorkflowExecution := { out.2.1 with status := .failed }
            (saveWf out.1 exec3, .ok exec3)

/-- The `signal:` state key. -/
def signalKey (event : String) : String := "signal:" ++ event

/-- `signalWorkflow` of `MotiaRuntime`. -/
def signalWorkflow (rt : Runtime) (workflowId event : String) (data : Val) :
    Runtime × Except String Unit :=
  match MapGet rt.db workflowId with
  | none => (rt, .ok ())
  | some execution =>
      if execution.status = .running ∨ execution.status = .paused then
        let ws1 := setWState rt.workflowState workflowId (signalKey event)
          (.withTimestamp data rt.clock)
        let rt1 : Runtime := { rt with workflowState := ws1, clock := rt.clock + 1 }
        let execution1 : WorkflowExecution := { execution with status := .running }
        match MapGet rt1.workflowDefinitions execution1.workflowId with
        | none => (rt1, .ok ())
        | some wd =>
            match execution1.currentStep with
            | none => (rt1, .ok ())
            | some cs =>
                let lastCompleted : Option StepExecution :=
                  match wd.steps.findIdx? (fun s => s.id == cs) with
                  | some i => if 0 < i then execution1.steps[i - 1]? else none
                  | none => none
                let rawOut : Val :=
                  match lastCompleted with
                  | some s => s.output.getD .undef
                  | none => .undef
                let resumeInput := jsOr rawOut .emptyObj
                let execution2 : WorkflowExecution :=
                  { execution1 with steps := execution1.steps.map (fun s =>
                      if s.stepId == cs then { s with status := .pending, error := none } else s) }
                let out := executeWorkflow rt1 execution2 resumeInput
                (out.1, out.2.2)
      else (rt, .ok ())

/-! ## Basic map lemmas -/

theorem MapGet_MapSet_self {α : Type} (m : List (String × α)) (k : String) (v : α) :
    MapGet (MapSet m k v) k = some v := by
  induction m with
  | nil => simp [MapGet, MapSet]
  | cons p t ih =>
      by_cases h : p.1 == k
      · simp [MapGet, MapSet, h]
      · simp only [MapSet, h, Bool.false_eq_true, if_false, MapGet, ih]

theorem MapSet_MapSet_self {α : Type} (m : List (String × α)) (k : String) (v w : α) :
    MapSet (MapSet m k v) k w = MapSet m k w := by
  induction m with
  | nil => simp [MapSet]
  | cons p t ih =>
      by_cases h : p.1 == k
      · simp [MapSet, h]
      · simp only [MapSet, h, Bool.false_eq_true, if_false, ih]

/-! ## Substring lemmas for the pause marker -/

theorem startsWith_append_self (pat b : List Char) : startsWith (pat ++ b) pat = true := by
  induction pat with
  | nil => cases b <;> rfl
  | cons a as ih => simp [startsWith, ih]

theorem hasSub_append_left (x : List Char) {l pat : List Char} (h : hasSub l pat = true) :
    hasSub (x ++ l) pat = true := by
  induction x with
  | nil => simpa using h
  | cons c cs ih => simp [hasSub, ih]

theorem hasSub_self_append (pat b : List Char) : hasSub (pat ++ b) pat = true := by
  cases pat with
  | nil => cases b <;> simp [hasSub, startsWith]
  | cons c t =>
      have h := startsWith_append_self (c :: t) b
      simp only [hasSub, Bool.or_eq_true]
      left
      simpa using h

theorem strIncludes_surround (s1 s2 pat : String) :
    strIncludes (s1 ++ pat ++ s2) pat = true := by
  unfold strIncludes
  rw [String.data_append, String.data_append, List.append_assoc]
  exact hasSub_append_left _ (hasSub_self_append _ _)

/-! ## Fixtures used by witnesses and counterexamples -/

/-- An empty runtime. -/
def rt0 : Runtime := ⟨[], [], [], [], 0⟩

/-- A fresh pending step execution record. -/
def seFresh (sid : String) : StepExecution :=
  { stepId := sid, status := .pending, attempts := 0, startedAt := none,
    completedAt := none, error := none, output := none, logs := [] }

/-- A step whose handler always throws an ordinary error, retried twice. -/
def sdBoom : StepDefinition :=
  { id := "s-fail", name := "Always fails",
    handler := fun _ => ⟨.error "boom", [], []⟩,
    retryPolicy := some ⟨some 2, some 10⟩ }

/-- A step whose handler always throws, with a single attempt. -/
def sdOnce : StepDefinition :=
  { id := "s-once", name := "Fails once",
    handler := fun _ => ⟨.error "boom", [], []⟩,
    retryPolicy := some ⟨some 1, some 5⟩ }

/-- A step whose handler succeeds with output `7`. -/
def sdOk : StepDefinition :=
  { id := "s-ok", name := "Succeeds",
    handler := fun _ => ⟨.ok ⟨Val.nat 7, none⟩, [], []⟩,
    retryPolicy := none }

/-- A second succeeding step. -/
def sdOk2 : StepDefinition :=
  { id := "s-ok2", name := "Succeeds too",
    handler := fun _ => ⟨.ok ⟨Val.nat 8, none⟩, [], []⟩,
    retryPolicy := none }

/-- A wait-style step: succeed if the `verified` signal is present in the
workflow state, otherwise throw the pause-marker error. -/
def sdWait : StepDefinition :=
  { id := "s-wait", name := "Wait for verification",
    handler := fun ctx =>
      match MapGet ctx.state "signal:verified" with
      | some _ => ⟨.ok ⟨Val.nat 1, none⟩, [("Verification signal received, proceeding", none)], []⟩
      | none => ⟨.error "WORKFLOW_PAUSED_WAITING_FOR_SIGNAL:verified",
          [("WORKFLOW_PAUSED_WAITING_FOR_SIGNAL: verified", none)],
          [("waitingForVerification", Val.nat 1)]⟩,
    retryPolicy := none }

/-! ## C6 -/

/-- C6: `startWorkflow` on an unregistered workflow id fails with the
definition-not-found error and leaves the runtime (hence the store)
untouched, while `signalWorkflow` on a nonexistent execution id returns
normally as a no-op. -/
theorem c6_unknown_id_handling :
    (∀ (rt : Runtime) (workflowId : String) (input : Val) (newId : String),
      MapGet rt.workflowDefinitions workflowId = none →
      startWorkflow rt workflowId input newId =
        (rt, .error s!"Workflow {workflowId} not found")) ∧
    (∀ (rt : Runtime) (execId event : String) (data : Val),
      MapGet rt.db execId = none →
      signalWorkflow rt execId event data = (rt, .ok ())) := by
  constructor
  · intro rt wfId input newId h
    unfold startWorkflow
    rw [h]
  · intro rt eid ev d h
    unfold signalWorkflow
    rw [h]

/-- Witness for C6 at concrete inputs. -/
theorem c6_unknown_id_handling_witness :
    MapGet rt0.workflowDefinitions "nonexistent" = none ∧
    startWorkflow rt0 "nonexistent" Val.emptyObj "id1" =
      (rt0, .error "Workflow nonexistent not found") ∧
    MapGet rt0.db "nonexistent-id" = none ∧
    signalWorkflow rt0 "nonexistent-id" "x" Val.emptyObj = (rt0, .ok ()) :=
  ⟨rfl, c6_unknown_id_handling.1 rt0 "nonexistent" Val.emptyObj "id1" rfl,
   rfl, c6_unknown_id_handling.2 rt0 "nonexistent-id" "x" Val.emptyObj rfl⟩

/-! ## C7 -/

/-- A registered definition. -/
def stepOne : StepDefinition :=
  { id := "a", name := "one", handler := fun _ => ⟨.ok ⟨Val.nat 1, none⟩, [], []⟩,
    retryPolicy := none }

/-- A different definition with the same id. -/
def stepTwo : StepDefinition :=
  { id := "a", name := "two", handler := fun _ => ⟨.ok ⟨Val.nat 2, none⟩, [], []⟩,
    retryPolicy := none }

/-- C7 counterexample: registering a second definition with the same id but
a different body does not fail at all: `registerStep` silently overwrites the
stored definition (the registry afterwards answers with the second body). -/
theorem c7_duplicate_registration_cex :
    ((MapGet (registerStep (registerStep rt0 stepOne) stepTwo).stepDefinitions "a").map
      StepDefinition.name) = some "two" ∧
    ((MapGet (registerStep rt0 stepOne).stepDefinitions "a").map
      StepDefinition.name) = some "one" :=
  ⟨rfl, rfl⟩

/-- C7 amended: `register` stores the definition by id; re-registering the
same id silently overwrites the previous definition with no duplicate-id
error (last write wins), and re-registering an identical definition leaves
the registry unchanged. -/
theorem c7_register_overwrites (rt : Runtime) (sd sd2 : StepDefinition)
    (hid : sd2.id = sd.id) :
    MapGet (registerStep (registerStep rt sd) sd2).stepDefinitions sd.id = some sd2 ∧
    registerStep (registerStep rt sd) sd = registerStep rt sd := by
  constructor
  · simp only [registerStep, hid, MapSet_MapSet_self]
    exact MapGet_MapSet_self _ _ _
  · simp only [registerStep, MapSet_MapSet_self]

/-- Witness for C7's amended statement at concrete inputs. -/
theorem c7_register_overwrites_witness :
    stepTwo.id = stepOne.id ∧
    MapGet (registerStep (registerStep rt0 stepOne) stepTwo).stepDefinitions
      stepOne.id = some stepTwo ∧
    registerStep (registerStep rt0 stepOne) stepOne = registerStep rt0 stepOne :=
  ⟨rfl, (c7_register_overwrites rt0 stepOne stepTwo rfl).1,
    (c7_register_overwrites rt0 stepOne stepTwo rfl).2⟩

/-! ## The retry loop under an always-failing handler -/

/-- Unfolding one iteration of the retry loop when the handler throws an
ordinary (non-pause) error. -/
theorem retryFrom_succ_of_fail (sd : StepDefinition) (wfId : String) (input : Val)
    (maxA bo n : Nat) (se : StepExecution) (ws : WStates) (clock : Nat)
    (sleeps : List Nat) (calls : Nat) (lastErr : Option String) (m : String)
    (hm : (sd.handler ⟨input, sd.id, wfId, maxA - n, bagOf ws wfId⟩).out = Except.error m)
    (hp : pauseDetect m = false) :
    retryFrom sd wfId input maxA bo (n+1) se ws clock sleeps calls lastErr
      = retryFrom sd wfId input maxA bo n
          { se with attempts := maxA - n,
                    status := if maxA - n = 1 then .running else .retrying,
                    startedAt := some clock,
                    error := some m,
                    logs := ((se.logs ++ [⟨clock + 1, attemptMsg (maxA - n) maxA, none⟩])
                      ++ mkEntries (clock + 2) (sd.handler ⟨input, sd.id, wfId, maxA - n, bagOf ws wfId⟩).logs)
                      ++ [⟨clock + 2 + (sd.handler ⟨input, sd.id, wfId, maxA - n, bagOf ws wfId⟩).logs.length,
                           attemptFailedMsg (maxA - n) m, none⟩] }
          (applyWrites ws wfId (sd.handler ⟨input, sd.id, wfId, maxA - n, bagOf ws wfId⟩).writes)
          (clock + 2 + (sd.handler ⟨input, sd.id, wfId, maxA - n, bagOf ws wfId⟩).logs.length + 1)
          (if maxA - n < maxA then sleeps ++ [bo * (maxA - n)] else sleeps)
          (calls + 1) (some m) := by
  conv_lhs => rw [retryFrom]
  rw [hm]
  simp [hp]

/-- Behaviour of the retry loop when every handler invocation throws an
ordinary error: the loop runs all `r` remaining attempts (one handler call
each), the step ends `failed` with `completedAt` set, the final `attempts`
counter is `maxA`, the thrown error is also retained in the step's `error`
field, and one backoff sleep of `bo * attempt` is recorded after every
attempt except the last. -/
theorem retryFrom_fail_spec (sd : StepDefinition) (wfId : String) (input : Val) (maxA bo : Nat)
    (hfail : ∀ (a : Nat) (bag : List (String × Val)), ∃ m,
      (sd.handler ⟨input, sd.id, wfId, a, bag⟩).out = Except.error m ∧ pauseDetect m = false) :
    ∀ (r : Nat), r ≤ maxA → ∀ (se : StepExecution) (ws : WStates) (clock : Nat)
      (sleeps : List Nat) (calls : Nat) (lastErr : Option String),
      (retryFrom sd wfId input maxA bo r se ws clock sleeps calls lastErr).se.status = .failed ∧
      (retryFrom sd wfId input maxA bo r se ws clock sleeps calls lastErr).se.completedAt.isSome = true ∧
      (retryFrom sd wfId input maxA bo r se ws clock sleeps calls lastErr).calls = calls + r ∧
      (retryFrom sd wfId input maxA bo r se ws clock sleeps calls lastErr).sleeps
        = sleeps ++ (List.range (r - 1)).map (fun i => bo * (maxA - r + 1 + i)) ∧
      (1 ≤ r →
        (retryFrom sd wfId input maxA bo r se ws clock sleeps calls lastErr).se.attempts = maxA ∧
        ∃ m, (retryFrom sd wfId input maxA bo r se ws clock sleeps calls lastErr).result
            = Except.error m ∧
          (retryFrom sd wfId input maxA bo r se ws clock sleeps calls lastErr).se.error = some m) := by
  intro r
  induction r with
  | zero =>
      intro _ se ws clock sleeps calls lastErr
      refine ⟨rfl, rfl, by simp [retryFrom], by simp [retryFrom],
        fun h => (Nat.not_succ_le_zero 0 h).elim⟩
  | succ n ih =>
      intro hle se ws clock sleeps calls lastErr
      obtain ⟨m, hm, hp⟩ := hfail (maxA - n) (bagOf ws wfId)
      rw [retryFrom_succ_of_fail sd wfId input maxA bo n se ws clock sleeps calls lastErr m hm hp]
      rcases Nat.eq_zero_or_pos n with hn | hn
      · subst hn
        refine ⟨rfl, rfl, by simp [retryFrom], ?_, fun _ => ⟨by simp [retryFrom], m, ?_, ?_⟩⟩
        · simp [retryFrom]
        · simp [retryFrom]
        · simp [retryFrom]
      · refine ⟨(ih (by omega) _ _ _ _ _ _).1, (ih (by omega) _ _ _ _ _ _).2.1, ?_, ?_,
          fun _ => ((ih (by omega) _ _ _ _ _ _).2.2.2.2 hn)⟩
        · rw [(ih (by omega) _ _ _ _ _ _).2.2.1]
          omega
        · rw [(ih (by omega) _ _ _ _ _ _).2.2.2.1]
          rw [if_pos (Nat.sub_lt (by omega) (by omega))]
          obtain ⟨k, rfl⟩ : ∃ k, n = k + 1 := ⟨n - 1, by omega⟩
          simp only [Nat.add_sub_cancel, List.range_succ_eq_map, List.map_cons, List.map_map,
            List.append_assoc, List.singleton_append]
          congr 1
          congr 1
          · congr 1
            omega
          · refine List.map_congr_left (fun i _ => ?_)
            simp only [Function.comp]
            congr 1
            omega

/-! ## C2 -/

/-- C2: if a step's handler throws an ordinary (non-pause) error on every
invocation, the retry executor performs exactly `maxAttempts` handler calls,
ends with the step `failed`, `attempts = maxAttempts`, `completedAt` set,
and the last failure's message retained in the step's `error` field (the
same message it rethrows). -/
theorem c2_retry_bound (sd : StepDefinition) (se : StepExecution) (wfId : String)
    (input : Val) (ws : WStates) (clock : Nat)
    (hmax : 1 ≤ maxAttemptsOf sd)
    (hfail : ∀ (a : Nat) (bag : List (String × Val)), ∃ m,
      (sd.handler ⟨input, sd.id, wfId, a, bag⟩).out = Except.error m ∧ pauseDetect m = false) :
    (executeStepWithRetry sd se wfId input ws clock).calls = maxAttemptsOf sd ∧
    (executeStepWithRetry sd se wfId input ws clock).se.attempts = maxAttemptsOf sd ∧
    (executeStepWithRetry sd se wfId input ws clock).se.status = .failed ∧
    (executeStepWithRetry sd se wfId input ws clock).se.completedAt.isSome = true ∧
    ∃ m, (executeStepWithRetry sd se wfId input ws clock).result = Except.error m ∧
      (executeStepWithRetry sd se wfId input ws clock).se.error = some m := by
  have h := retryFrom_fail_spec sd wfId input (maxAttemptsOf sd) (backoffMsOf sd) hfail
    (maxAttemptsOf sd) le_rfl se ws clock [] 0 none
  unfold executeStepWithRetry
  refine ⟨?_, (h.2.2.2.2 hmax).1, h.1, h.2.1, (h.2.2.2.2 hmax).2⟩
  rw [h.2.2.1]
  omega

/-- Witness for C2: the always-failing two-attempt step really performs two
handler calls and ends failed with `attempts = 2` and the error retained. -/
theorem c2_retry_bound_witness :
    1 ≤ maxAttemptsOf sdBoom ∧
    (executeStepWithRetry sdBoom (seFresh "s-fail") "e1" Val.undef [] 0).calls
      = maxAttemptsOf sdBoom ∧
    (executeStepWithRetry sdBoom (seFresh "s-fail") "e1" Val.undef [] 0).se.attempts
      = maxAttemptsOf sdBoom ∧
    (executeStepWithRetry sdBoom (seFresh "s-fail") "e1" Val.undef [] 0).se.status
      = StepStatus.failed ∧
    ∃ m, (executeStepWithRetry sdBoom (seFresh "s-fail") "e1" Val.undef [] 0).result
        = Except.error m ∧
      (executeStepWithRetry sdBoom (seFresh "s-fail") "e1" Val.undef [] 0).se.error = some m := by
  have h := c2_retry_bound sdBoom (seFresh "s-fail") "e1" Val.undef [] 0 (by decide)
    (fun a bag => ⟨"boom", rfl, by decide⟩)
  exact ⟨by decide, h.1, h.2.1, h.2.2.1, h.2.2.2.2⟩

/-! ## C8 -/

/-- C8: under ordinary failures the recorded backoff sleeps are exactly
`backoffMs * k` for the attempts `k = 1 .. maxAttempts - 1`, i.e. a linear
backoff sleep happens after the failure of attempt `k` precisely when
`k < maxAttempts`, and no sleep follows the final attempt. -/
theorem c8_linear_backoff_schedule (sd : StepDefinition) (se : StepExecution) (wfId : String)
    (input : Val) (ws : WStates) (clock : Nat)
    (hfail : ∀ (a : Nat) (bag : List (String × Val)), ∃ m,
      (sd.handler ⟨input, sd.id, wfId, a, bag⟩).out = Except.error m ∧ pauseDetect m = false) :
    (executeStepWithRetry sd se wfId input ws clock).sleeps =
      (List.range (maxAttemptsOf sd - 1)).map (fun i => backoffMsOf sd * (i + 1)) := by
  have h := (retryFrom_fail_spec sd wfId input (maxAttemptsOf sd) (backoffMsOf sd) hfail
    (maxAttemptsOf sd) le_rfl se ws clock [] 0 none).2.2.2.1
  unfold executeStepWithRetry
  rw [h]
  simp only [List.nil_append]
  refine List.map_congr_left (fun i _ => ?_)
  congr 1
  omega

/-- Witness for C8: with `maxAttempts = 2` and `backoffMs = 10` the single
recorded sleep is `10 * 1`, and none follows the final attempt. -/
theorem c8_linear_backoff_schedule_witness :
    (executeStepWithRetry sdBoom (seFresh "s-fail") "e1" Val.undef [] 0).sleeps = [10] := by
  have h := c8_linear_backoff_schedule sdBoom (seFresh "s-fail") "e1" Val.undef [] 0
    (fun a bag => ⟨"boom", rfl, by decide⟩)
  rw [h]
  decide

/-! ## Pause behaviour of the retry loop and the scheduler -/

/-- Behaviour of one retry-loop iteration whose handler throws an error
recognized as a pause request: the loop returns at once. -/
theorem retryFrom_pause_spec (sd : StepDefinition) (wfId : String) (input : Val)
    (maxA bo r : Nat) (se : StepExecution) (ws : WStates) (clock : Nat)
    (sleeps : List Nat) (calls : Nat) (lastErr : Option String) (m : String)
    (hm : (sd.handler ⟨input, sd.id, wfId, maxA - r, bagOf ws wfId⟩).out = Except.error m)
    (hp : pauseDetect m = true) :
    (retryFrom sd wfId input maxA bo (r+1) se ws clock sleeps calls lastErr).result
      = Except.error m ∧
    (retryFrom sd wfId input maxA bo (r+1) se ws clock sleeps calls lastErr).se.status
      = .running ∧
    (retryFrom sd wfId input maxA bo (r+1) se ws clock sleeps calls lastErr).se.error = none ∧
    (retryFrom sd wfId input maxA bo (r+1) se ws clock sleeps calls lastErr).se.attempts
      = maxA - r ∧
    (retryFrom sd wfId input maxA bo (r+1) se ws clock sleeps calls lastErr).calls
      = calls + 1 ∧
    (retryFrom sd wfId input maxA bo (r+1) se ws clock sleeps calls lastErr).sleeps = sleeps ∧
    ∃ t, (retryFrom sd wfId input maxA bo (r+1) se ws clock sleeps calls lastErr).se.logs.getLast?
      = some ⟨t, "Workflow paused, waiting for signal", none⟩ := by
  simp only [retryFrom]
  rw [hm]
  simp only [hp, if_true]
  refine ⟨trivial, trivial, trivial, trivial, trivial, trivial, ?_⟩
  exact ⟨_, List.getLast?_concat _⟩

/-- Behaviour of the scheduler loop when the current step's run rethrows a
pause error: mark the execution paused, persist it, and stop, touching no
other step entry. -/
theorem execSteps_pause_spec (rt : Runtime) (sd : StepDefinition) (rest : List StepDefinition)
    (exec : WorkflowExecution) (input : Val) (se : StepExecution) (m : String)
    (hf : exec.steps.find? (fun s => s.stepId == sd.id) = some se)
    (hnc : ¬ se.status = .completed)
    (hres : (executeStepWithRetry sd se exec.id input rt.workflowState rt.clock).result
      = Except.error m)
    (hp : pauseDetect m = true) :
    (execSteps rt (sd :: rest) exec input).2.1.status = .paused ∧
    (execSteps rt (sd :: rest) exec input).2.2 = Except.ok () ∧
    MapGet (execSteps rt (sd :: rest) exec input).1.db exec.id
      = some (execSteps rt (sd :: rest) exec input).2.1 ∧
    (execSteps rt (sd :: rest) exec input).2.1.steps
      = exec.steps.map (fun s => if s.stepId == sd.id then
          (executeStepWithRetry sd se exec.id input rt.workflowState rt.clock).se else s) ∧
    (execSteps rt (sd :: rest) exec input).2.1.currentStep = some sd.id := by
  simp only [execSteps, hf, if_neg hnc, saveWf]
  rw [hres]
  simp only [hp, if_true]
  refine ⟨trivial, trivial, ?_, trivial, trivial⟩
  exact MapGet_MapSet_self _ _ _

/-! ## C1 -/

/-- C1: a handler pause request short-circuits the retry executor at any
attempt number: exactly this one handler call happens, no backoff sleep is
added, the step is left `running` (not failed) with its error cleared and a
"Workflow paused, waiting for signal" log appended, and the pause is
rethrown rather than turned into a failure; the scheduler loop then sets the
execution's status to `paused`, persists that record in the store, replaces
only the current step's entry, and returns without processing any later
step. -/
theorem c1_pause_short_circuits :
    (∀ (sd : StepDefinition) (wfId : String) (input : Val) (maxA bo r : Nat)
        (se : StepExecution) (ws : WStates) (clock : Nat) (sleeps : List Nat)
        (calls : Nat) (lastErr : Option String) (m : String),
      (sd.handler ⟨input, sd.id, wfId, maxA - r, bagOf ws wfId⟩).out = Except.error m →
      pauseDetect m = true →
      (retryFrom sd wfId input maxA bo (r+1) se ws clock sleeps calls lastErr).calls
        = calls + 1 ∧
      (retryFrom sd wfId input maxA bo (r+1) se ws clock sleeps calls lastErr).sleeps = sleeps ∧
      (retryFrom sd wfId input maxA bo (r+1) se ws clock sleeps calls lastErr).se.status
        = .running ∧
      (retryFrom sd wfId input maxA bo (r+1) se ws clock sleeps calls lastErr).se.error
        = none ∧
      (retryFrom sd wfId input maxA bo (r+1) se ws clock sleeps calls lastErr).result
        = Except.error m ∧
      ∃ t, (retryFrom sd wfId input maxA bo (r+1) se ws clock
            sleeps calls lastErr).se.logs.getLast?
        = some ⟨t, "Workflow paused, waiting for signal", none⟩) ∧
    (∀ (rt : Runtime) (sd : StepDefinition) (rest : List StepDefinition)
        (exec : WorkflowExecution) (input : Val) (se : StepExecution) (m : String),
      exec.steps.find? (fun s => s.stepId == sd.id) = some se →
      ¬ se.status = .completed →
      (executeStepWithRetry sd se exec.id input rt.workflowState rt.clock).result
        = Except.error m →
      pauseDetect m = true →
      (execSteps rt (sd :: rest) exec input).2.1.status = .paused ∧
      (execSteps rt (sd :: rest) exec input).2.2 = Except.ok () ∧
      MapGet (execSteps rt (sd :: rest) exec input).1.db exec.id
        = some (execSteps rt (sd :: rest) exec input).2.1 ∧
      (execSteps rt (sd :: rest) exec input).2.1.steps
        = exec.steps.map (fun s => if s.stepId == sd.id then
            (executeStepWithRetry sd se exec.id input rt.workflowState rt.clock).se else s)) := by
  constructor
  · intro sd wfId input maxA bo r se ws clock sleeps calls lastErr m hm hp
    have h := retryFrom_pause_spec sd wfId input maxA bo r se ws clock sleeps calls lastErr m hm hp
    exact ⟨h.2.2.2.2.1, h.2.2.2.2.2.1, h.2.1, h.2.2.1, h.1, h.2.2.2.2.2.2⟩
  · intro rt sd rest exec input se m hf hnc hres hp
    have h := execSteps_pause_spec rt sd rest exec input se m hf hnc hres hp
    exact ⟨h.1, h.2.1, h.2.2.1, h.2.2.2.1⟩

/-- Workflow definition used by the pause witnesses: a single wait step. -/
def wdWait : WorkflowDefinition := { id := "wfW", name := "Wait wf", steps := [sdWait] }

/-- Execution about to run the wait step. -/
def execWait : WorkflowExecution :=
  { id := "eW", workflowId := "wfW", status := .running, currentStep := none,
    startedAt := 0, completedAt := none, steps := [seFresh "s-wait"] }

/-- Runtime holding the wait workflow and its execution. -/
def rtWait : Runtime :=
  { stepDefinitions := [], workflowDefinitions := [("wfW", wdWait)], workflowState := [],
    db := [("eW", execWait)], clock := 0 }

/-- Witness for C1: the wait step's pause request at attempt 2 (of 3) stops
the retry loop with the step left `running`, and the scheduler pauses and
persists the execution. -/
theorem c1_pause_short_circuits_witness :
    (sdWait.handler ⟨Val.undef, sdWait.id, "eW", 3 - 1, bagOf [] "eW"⟩).out
      = Except.error "WORKFLOW_PAUSED_WAITING_FOR_SIGNAL:verified" ∧
    pauseDetect "WORKFLOW_PAUSED_WAITING_FOR_SIGNAL:verified" = true ∧
    (retryFrom sdWait "eW" Val.undef 3 1000 2 (seFresh "s-wait") [] 0 [] 0 none).calls = 1 ∧
    (retryFrom sdWait "eW" Val.undef 3 1000 2 (seFresh "s-wait") [] 0 [] 0 none).se.status
      = StepStatus.running ∧
    (execSteps rtWait [sdWait] execWait Val.undef).2.1.status = WfStatus.paused ∧
    MapGet (execSteps rtWait [sdWait] execWait Val.undef).1.db "eW"
      = some (execSteps rtWait [sdWait] execWait Val.undef).2.1 := by
  have h1 := c1_pause_short_circuits.1 sdWait "eW" Val.undef 3 1000 1 (seFresh "s-wait")
    [] 0 [] 0 none "WORKFLOW_PAUSED_WAITING_FOR_SIGNAL:verified" rfl (by decide)
  have h2 := c1_pause_short_circuits.2 rtWait sdWait [] execWait Val.undef
    (seFresh "s-wait") "WORKFLOW_PAUSED_WAITING_FOR_SIGNAL:verified" rfl (by decide) rfl
    (by decide)
  exact ⟨rfl, by decide, h1.1, h1.2.2.1, h2.1, h2.2.2.1⟩

/-! ## C10 -/

/-- C10: pause detection is purely substring-based: any handler error whose
message contains `WORKFLOW_PAUSED_WAITING_FOR_SIGNAL` anywhere — whatever
surrounds it — is treated as a pause request: the retry loop returns after
this single call (never retries), leaves the step `running` (never
`failed`) with its error cleared, and the scheduler marks the execution
`paused` instead of recording a failure. -/
theorem c10_substring_pause_detection (s1 s2 : String) :
    pauseDetect (s1 ++ pauseMarker ++ s2) = true ∧
    (∀ (sd : StepDefinition) (wfId : String) (input : Val) (maxA bo r : Nat)
        (se : StepExecution) (ws : WStates) (clock : Nat) (sleeps : List Nat)
        (calls : Nat) (lastErr : Option String),
      (sd.handler ⟨input, sd.id, wfId, maxA - r, bagOf ws wfId⟩).out
        = Except.error (s1 ++ pauseMarker ++ s2) →
      (retryFrom sd wfId input maxA bo (r+1) se ws clock sleeps calls lastErr).calls
        = calls + 1 ∧
      (retryFrom sd wfId input maxA bo (r+1) se ws clock sleeps calls lastErr).se.status
        = .running ∧
      ¬ (retryFrom sd wfId input maxA bo (r+1) se ws clock sleeps calls lastErr).se.status
        = .failed ∧
      (retryFrom sd wfId input maxA bo (r+1) se ws clock sleeps calls lastErr).se.error
        = none ∧
      (retryFrom sd wfId input maxA bo (r+1) se ws clock sleeps calls lastErr).result
        = Except.error (s1 ++ pauseMarker ++ s2)) ∧
    (∀ (rt : Runtime) (sd : StepDefinition) (rest : List StepDefinition)
        (exec : WorkflowExecution) (input : Val) (se : StepExecution),
      exec.steps.find? (fun s => s.stepId == sd.id) = some se →
      ¬ se.status = .completed →
      (executeStepWithRetry sd se exec.id input rt.workflowState rt.clock).result
        = Except.error (s1 ++ pauseMarker ++ s2) →
      (execSteps rt (sd :: rest) exec input).2.1.status = .paused ∧
      (execSteps rt (sd :: rest) exec input).2.2 = Except.ok ()) := by
  have hpd : pauseDetect (s1 ++ pauseMarker ++ s2) = true := by
    unfold pauseDetect
    exact strIncludes_surround s1 s2 pauseMarker
  refine ⟨hpd, ?_, ?_⟩
  · intro sd wfId input maxA bo r se ws clock sleeps calls lastErr hm
    have h := retryFrom_pause_spec sd wfId input maxA bo r se ws clock sleeps calls lastErr
      (s1 ++ pauseMarker ++ s2) hm hpd
    refine ⟨h.2.2.2.2.1, h.2.1, ?_, h.2.2.1, h.1⟩
    rw [h.2.1]
    simp
  · intro rt sd rest exec input se hf hnc hres
    have h := execSteps_pause_spec rt sd rest exec input se (s1 ++ pauseMarker ++ s2)
      hf hnc hres hpd
    exact ⟨h.1, h.2.1⟩

/-- A step throwing an error that merely embeds the pause marker in a longer
message. -/
def sdOdd : StepDefinition :=
  { id := "s-odd", name := "Odd message",
    handler := fun _ => ⟨.error ("Error: " ++ pauseMarker ++ " (code 7)"), [], []⟩,
    retryPolicy := some ⟨some 5, some 1⟩ }

/-- Witness for C10 at a concrete surrounding message. -/
theorem c10_substring_pause_detection_witness :
    pauseDetect ("Error: " ++ pauseMarker ++ " (code 7)") = true ∧
    (sdOdd.handler ⟨Val.undef, sdOdd.id, "e1", 5 - 4, bagOf [] "e1"⟩).out
      = Except.error ("Error: " ++ pauseMarker ++ " (code 7)") ∧
    (retryFrom sdOdd "e1" Val.undef 5 1 5 (seFresh "s-odd") [] 0 [] 0 none).calls = 1 ∧
    (retryFrom sdOdd "e1" Val.undef 5 1 5 (seFresh "s-odd") [] 0 [] 0 none).se.status
      = StepStatus.running ∧
    (retryFrom sdOdd "e1" Val.undef 5 1 5 (seFresh "s-odd") [] 0 [] 0 none).se.error = none := by
  have h := (c10_substring_pause_detection "Error: " " (code 7)").2.1 sdOdd "e1" Val.undef
    5 1 4 (seFresh "s-odd") [] 0 [] 0 none rfl
  exact ⟨(c10_substring_pause_detection "Error: " " (code 7)").1, rfl, h.1, h.2.1, h.2.2.2.1⟩

/-! ## Scheduler lemmas: skipping completed steps -/

deriving instance DecidableEq for Except

/-- A step definition with no matching step-execution entry is skipped
(`continue` without touching the input). -/
theorem execSteps_skip_none (rt : Runtime) (sd : StepDefinition) (rest : List StepDefinition)
    (exec : WorkflowExecution) (input : Val)
    (hf : exec.steps.find? (fun s => s.stepId == sd.id) = none) :
    execSteps rt (sd :: rest) exec input = execSteps rt rest exec input := by
  conv_lhs => rw [execSteps]
  rw [hf]

/-- An already-completed step is skipped and its stored output becomes the
next step's input. -/
theorem execSteps_skip (rt : Runtime) (sd : StepDefinition) (rest : List StepDefinition)
    (exec : WorkflowExecution) (input : Val) (se : StepExecution)
    (hf : exec.steps.find? (fun s => s.stepId == sd.id) = some se)
    (hc : se.status = .completed) :
    execSteps rt (sd :: rest) exec input
      = execSteps rt rest exec (se.output.getD Val.undef) := by
  conv_lhs => rw [execSteps]
  rw [hf]
  simp only [hc, if_true]

/-- If every step-execution entry is completed, the scheduler loop only
skips and then re-marks the execution completed, leaving `steps`
untouched. -/
theorem execSteps_allCompleted (rt : Runtime) (exec : WorkflowExecution)
    (h : ∀ se ∈ exec.steps, se.status = .completed) :
    ∀ (steps : List StepDefinition) (input : Val),
      execSteps rt steps exec input =
        (saveWf { rt with clock := rt.clock + 1 }
          { exec with status := .completed, completedAt := some rt.clock, currentStep := none },
         { exec with status := .completed, completedAt := some rt.clock, currentStep := none },
         .ok ()) := by
  intro steps
  induction steps with
  | nil => intro input; rfl
  | cons sd rest ih =>
      intro input
      cases hf : exec.steps.find? (fun s => s.stepId == sd.id) with
      | none => rw [execSteps_skip_none rt sd rest exec input hf]; exact ih _
      | some se =>
          rw [execSteps_skip rt sd rest exec input se hf (h se (List.mem_of_find?_eq_some hf))]
          exact ih _

/-- Running `executeWorkflow` on an execution whose steps are all completed
preserves `steps` and leaves the status `completed`. -/
theorem executeWorkflow_completed_preserved (rt : Runtime) (exec : WorkflowExecution)
    (input : Val) (hst : exec.status = .completed)
    (hall : ∀ se ∈ exec.steps, se.status = .completed) :
    (executeWorkflow rt exec input).2.1.status = .completed ∧
    (executeWorkflow rt exec input).2.1.steps = exec.steps := by
  cases hwd : MapGet rt.workflowDefinitions exec.workflowId with
  | none =>
      have he : executeWorkflow rt exec input = (rt, exec, .ok ()) := by
        unfold executeWorkflow
        rw [hwd]
      rw [he]
      exact ⟨hst, rfl⟩
  | some wd =>
      have he : executeWorkflow rt exec input
          = execSteps rt wd.steps { exec with currentStep := none } input := by
        unfold executeWorkflow
        rw [hwd]
      rw [he, execSteps_allCompleted rt { exec with currentStep := none }
        (by simpa using hall) wd.steps input]
      exact ⟨rfl, rfl⟩

/-! ## C3 -/

/-- A one-step workflow whose single recorded step failed earlier. -/
def execTermFailed : WorkflowExecution :=
  { id := "eT", workflowId := "wfT", status := .failed, currentStep := none,
    startedAt := 0, completedAt := none,
    steps := [{ stepId := "s-ok", status := .failed, attempts := 3, startedAt := some 1,
                completedAt := some 2, error := some "boom", output := none, logs := [] }] }

/-- Its workflow definition: the step's handler now succeeds. -/
def wdTerm : WorkflowDefinition := { id := "wfT", name := "T", steps := [sdOk] }

/-- Runtime holding the failed execution. -/
def rtTerm : Runtime :=
  { stepDefinitions := [], workflowDefinitions := [("wfT", wdTerm)], workflowState := [],
    db := [("eT", execTermFailed)], clock := 10 }

/-- C3 counterexample: calling `execute` on a `failed` (terminal) execution
re-processes the failed step and mutates both `steps` and `status` — here
all the way to `completed`. -/
theorem c3_terminal_immutability_cex :
    execTermFailed.status = WfStatus.failed ∧
    (executeWorkflow rtTerm execTermFailed Val.undef).2.1.status = WfStatus.completed ∧
    ¬ ((executeWorkflow rtTerm execTermFailed Val.undef).2.1.steps = execTermFailed.steps) :=
  ⟨rfl, by decide, by decide⟩

/-- C3 amended: `resume` (signal) is a no-op on `completed`/`failed`
executions, and `execute` on a completed execution (all steps completed)
leaves `steps` and `status` unchanged; but `execute` on a `failed` execution
re-processes its non-completed steps and may mutate `steps` and `status`
(see the counterexample). -/
theorem c3_terminal_immutability_amended :
    (∀ (rt : Runtime) (execId event : String) (data : Val) (exec : WorkflowExecution),
      MapGet rt.db execId = some exec →
      (exec.status = .completed ∨ exec.status = .failed) →
      signalWorkflow rt execId event data = (rt, .ok ())) ∧
    (∀ (rt : Runtime) (exec : WorkflowExecution) (input : Val),
      exec.status = .completed →
      (∀ se ∈ exec.steps, se.status = .completed) →
      (executeWorkflow rt exec input).2.1.status = .completed ∧
      (executeWorkflow rt exec input).2.1.steps = exec.steps) := by
  constructor
  · intro rt eid ev d exec hdb hterm
    unfold signalWorkflow
    rw [hdb]
    rcases hterm with h | h <;> simp [h]
  · intro rt exec input hst hall
    exact executeWorkflow_completed_preserved rt exec input hst hall

/-- A completed one-step execution. -/
def execDone : WorkflowExecution :=
  { id := "eD", workflowId := "wfT", status := .completed, currentStep := none,
    startedAt := 0, completedAt := some 3,
    steps := [{ stepId := "s-ok", status := .completed, attempts := 1, startedAt := some 1,
                completedAt := some 2, error := none, output := some (Val.nat 7), logs := [] }] }

/-- Runtime holding the completed execution. -/
def rtDone : Runtime :=
  { stepDefinitions := [], workflowDefinitions := [("wfT", wdTerm)], workflowState := [],
    db := [("eD", execDone)], clock := 4 }

/-- Witness for C3's amended statement at concrete inputs. -/
theorem c3_terminal_immutability_amended_witness :
    MapGet rtDone.db "eD" = some execDone ∧
    (execDone.status = WfStatus.completed ∨ execDone.status = WfStatus.failed) ∧
    signalWorkflow rtDone "eD" "x" Val.undef = (rtDone, .ok ()) ∧
    (executeWorkflow rtDone execDone Val.undef).2.1.status = WfStatus.completed ∧
    (executeWorkflow rtDone execDone Val.undef).2.1.steps = execDone.steps := by
  have h1 := c3_terminal_immutability_amended.1 rtDone "eD" "x" Val.undef execDone rfl
    (Or.inl rfl)
  have h2 := c3_terminal_immutability_amended.2 rtDone execDone Val.undef rfl (by decide)
  exact ⟨rfl, Or.inl rfl, h1, h2.1, h2.2⟩

/-! ## C4 -/

/-- A completed first-step record with stored output `7`. -/
def seDone7 : StepExecution :=
  { stepId := "s-ok", status := .completed, attempts := 1, startedAt := some 0,
    completedAt := some 1, error := none, output := some (Val.nat 7), logs := [] }

/-- Execution whose first step is completed and whose second (always
failing, one attempt) step is pending. -/
def execSkip : WorkflowExecution :=
  { id := "eS", workflowId := "wfS", status := .running, currentStep := none,
    startedAt := 0, completedAt := none, steps := [seDone7, seFresh "s-once"] }

/-- Two-step workflow: a succeeding step then the failing one. -/
def wdSkip : WorkflowDefinition := { id := "wfS", name := "S", steps := [sdOk, sdOnce] }

/-- Runtime for the skip scenario. -/
def rtSkip : Runtime :=
  { stepDefinitions := [], workflowDefinitions := [("wfS", wdSkip)], workflowState := [],
    db := [("eS", execSkip)], clock := 0 }

/-- C4 counterexample: on an execution whose first step is already
completed, calling `execute` twice does not produce identical final state
when a later step keeps failing: the second call re-runs the failed step
and appends further attempt logs, so the step records differ. -/
theorem c4_idempotent_resume_cex :
    (execSkip.steps.map (fun s => s.status)).head? = some StepStatus.completed ∧
    ¬ ((executeWorkflow (executeWorkflow rtSkip execSkip Val.undef).1
          (executeWorkflow rtSkip execSkip Val.undef).2.1 Val.undef).2.1.steps
        = (executeWorkflow rtSkip execSkip Val.undef).2.1.steps) :=
  ⟨rfl, by decide⟩

/-- C4 amended: `execute` skips every already-completed step, carrying its
stored output forward as the next step's input and running none of its
handler code, and processes only the remaining steps; calling `execute`
again after a call that completed every step leaves `steps` and `status`
unchanged (only the completion timestamp is refreshed); if instead a later
step keeps failing or pausing, the second call re-runs it and appends
further logs (see the counterexample). -/
theorem c4_idempotent_resume_amended :
    (∀ (rt : Runtime) (sd : StepDefinition) (rest : List StepDefinition)
        (exec : WorkflowExecution) (input : Val) (se : StepExecution),
      exec.steps.find? (fun s => s.stepId == sd.id) = some se →
      se.status = .completed →
      execSteps rt (sd :: rest) exec input
        = execSteps rt rest exec (se.output.getD Val.undef)) ∧
    (∀ (rt : Runtime) (exec : WorkflowExecution) (input input2 : Val),
      (∀ se ∈ (executeWorkflow rt exec input).2.1.steps, se.status = .completed) →
      (executeWorkflow rt exec input).2.1.status = .completed →
      (executeWorkflow (executeWorkflow rt exec input).1
          (executeWorkflow rt exec input).2.1 input2).2.1.steps
        = (executeWorkflow rt exec input).2.1.steps ∧
      (executeWorkflow (executeWorkflow rt exec input).1
          (executeWorkflow rt exec input).2.1 input2).2.1.status
        = (executeWorkflow rt exec input).2.1.status) := by
  constructor
  · intro rt sd rest exec input se hf hc
    exact execSteps_skip rt sd rest exec input se hf hc
  · intro rt exec input input2 hall hst
    have h := executeWorkflow_completed_preserved (executeWorkflow rt exec input).1
      (executeWorkflow rt exec input).2.1 input2 hst hall
    exact ⟨h.2, h.1.trans hst.symm⟩

/-- Witness for C4's amended statement at concrete inputs: the completed
first step is skipped with its output `7` carried forward, and a second
`execute` on the fully completed execution preserves steps and status. -/
theorem c4_idempotent_resume_amended_witness :
    execSkip.steps.find? (fun s => s.stepId == sdOk.id) = some seDone7 ∧
    seDone7.status = StepStatus.completed ∧
    execSteps rtSkip [sdOk, sdOnce] execSkip Val.undef
      = execSteps rtSkip [sdOnce] execSkip (Val.nat 7) ∧
    (∀ se ∈ (executeWorkflow rtDone execDone Val.undef).2.1.steps,
      se.status = StepStatus.completed) ∧
    (executeWorkflow (executeWorkflow rtDone execDone Val.undef).1
        (executeWorkflow rtDone execDone Val.undef).2.1 Val.undef).2.1.steps
      = (executeWorkflow rtDone execDone Val.undef).2.1.steps := by
  have h1 := c4_idempotent_resume_amended.1 rtSkip sdOk [sdOnce] execSkip Val.undef
    seDone7 rfl rfl
  have h2 := c4_idempotent_resume_amended.2 rtDone execDone Val.undef Val.undef
    (by decide) (by decide)
  exact ⟨rfl, rfl, h1, by decide, h2.1⟩

/-! ## C5 -/

/-- C5: the resume contract of `signalWorkflow`.  On a missing execution, or
one whose status is `completed`/`failed`, the call is a no-op returning
normally.  On a `running` or `paused` execution with a current step, it
writes the payload wrapped with a timestamp into the execution's signal
state under `signal:<name>`, resets the currently-paused step back to
`pending` with its error cleared, and re-invokes `executeWorkflow` with the
prior step's stored output (or `{ }` when there is none) as input. -/
theorem c5_resume_contract :
    (∀ (rt : Runtime) (execId event : String) (data : Val),
      MapGet rt.db execId = none →
      signalWorkflow rt execId event data = (rt, .ok ())) ∧
    (∀ (rt : Runtime) (execId event : String) (data : Val) (exec : WorkflowExecution),
      MapGet rt.db execId = some exec →
      (exec.status = .completed ∨ exec.status = .failed) →
      signalWorkflow rt execId event data = (rt, .ok ())) ∧
    (∀ (rt : Runtime) (execId event : String) (data : Val)
        (exec : WorkflowExecution) (wd : WorkflowDefinition) (cs : String) (i : Nat),
      MapGet rt.db execId = some exec →
      (exec.status = .running ∨ exec.status = .paused) →
      exec.currentStep = some cs →
      MapGet rt.workflowDefinitions exec.workflowId = some wd →
      wd.steps.findIdx? (fun s => s.id == cs) = some i →
      signalWorkflow rt execId event data =
        (let out := executeWorkflow
          { rt with
              workflowState :=
                setWState rt.workflowState execId (signalKey event)
                  (Val.withTimestamp data rt.clock),
              clock := rt.clock + 1 }
          { exec with
              status := .running,
              steps := exec.steps.map (fun s =>
                if s.stepId == cs then { s with status := .pending, error := none } else s) }
          (jsOr (match (if 0 < i then exec.steps[i - 1]? else none) with
                 | some s => s.output.getD Val.undef
                 | none => Val.undef) Val.emptyObj)
         (out.1, out.2.2))) := by
  refine ⟨?_, ?_, ?_⟩
  · intro rt eid ev d h
    unfold signalWorkflow
    rw [h]
  · intro rt eid ev d exec hdb hterm
    unfold signalWorkflow
    rw [hdb]
    rcases hterm with h | h <;> simp [h]
  · intro rt eid ev d exec wd cs i hdb hstat hcs hwd hidx
    unfold signalWorkflow
    rw [hdb]
    simp only [eq_true hstat, if_true, hwd, hcs, hidx]

/-- Execution paused on the wait step with `currentStep` recorded. -/
def execWaitPaused : WorkflowExecution :=
  { id := "eP", workflowId := "wfW", status := .paused, currentStep := some "s-wait",
    startedAt := 0, completedAt := none, steps := [seFresh "s-wait"] }

/-- Runtime holding the paused wait execution. -/
def rtWaitPaused : Runtime :=
  { stepDefinitions := [], workflowDefinitions := [("wfW", wdWait)], workflowState := [],
    db := [("eP", execWaitPaused)], clock := 3 }

/-- Witness for C5 at concrete inputs: signalling the paused execution
stores the timestamped payload, re-runs the wait step (which now observes
the signal), and the workflow completes. -/
theorem c5_resume_contract_witness :
    MapGet rtWaitPaused.db "eP" = some execWaitPaused ∧
    (execWaitPaused.status = WfStatus.running ∨ execWaitPaused.status = WfStatus.paused) ∧
    execWaitPaused.currentStep = some "s-wait" ∧
    wdWait.steps.findIdx? (fun s => s.id == "s-wait") = some 0 ∧
    (signalWorkflow rtWaitPaused "eP" "verified" (Val.nat 5)).2 = Except.ok () ∧
    (MapGet (signalWorkflow rtWaitPaused "eP" "verified" (Val.nat 5)).1.db "eP").map
      (fun e => e.status) = some WfStatus.completed ∧
    MapGet (bagOf (signalWorkflow rtWaitPaused "eP" "verified" (Val.nat 5)).1.workflowState
        "eP") "signal:verified" = some (Val.withTimestamp (Val.nat 5) 3) := by
  have h := c5_resume_contract.2.2 rtWaitPaused "eP" "verified" (Val.nat 5)
    execWaitPaused wdWait "s-wait" 0 rfl (Or.inr rfl) rfl rfl rfl
  refine ⟨rfl, Or.inr rfl, rfl, rfl, ?_, ?_, ?_⟩
  · rw [h]; decide
  · rw [h]; decide
  · rw [h]; decide

/-! ## C9 -/

/-- Execution paused on the single always-failing step. -/
def execOncePaused : WorkflowExecution :=
  { id := "eF", workflowId := "wfF", status := .paused, currentStep := some "s-once",
    startedAt := 0, completedAt := none, steps := [seFresh "s-once"] }

/-- One-step workflow around the failing step. -/
def wdOnce : WorkflowDefinition := { id := "wfF", name := "F", steps := [sdOnce] }

/-- Runtime holding the paused failing execution. -/
def rtOnce : Runtime :=
  { stepDefinitions := [], workflowDefinitions := [("wfF", wdOnce)], workflowState := [],
    db := [("eF", execOncePaused)], clock := 0 }

/-- C9: the resume path does not mark a terminally failed workflow as
`failed`.  Resuming the paused execution runs the step, whose retries
exhaust; `executeStepWithRetry` throws, the scheduler rethrows, and
`signalWorkflow` propagates the error without ever persisting
`status = failed`: the stored record keeps status `running` (saved when the
step was entered, before its attempts ran) and even the step's failure and
error message are absent from the persisted record (still `pending`, no
error).  In contrast, the same failing workflow entered via `startWorkflow`
is persisted as `failed` by the catch handler — the
`stepExecution.status === 'failed'` branch inside `executeWorkflow`
(motia.ts:81) is unreachable because `executeStepWithRetry` throws instead
of returning on failure. -/
theorem c9_resume_failure_not_persisted :
    (signalWorkflow rtOnce "eF" "x" (Val.nat 3)).2 = Except.error "boom" ∧
    (MapGet (signalWorkflow rtOnce "eF" "x" (Val.nat 3)).1.db "eF").map
      (fun e => e.status) = some WfStatus.running ∧
    ¬ ((MapGet (signalWorkflow rtOnce "eF" "x" (Val.nat 3)).1.db "eF").map
      (fun e => e.status) = some WfStatus.failed) ∧
    (MapGet (signalWorkflow rtOnce "eF" "x" (Val.nat 3)).1.db "eF").map
      (fun e => e.steps.map (fun s => s.status)) = some [StepStatus.pending] ∧
    (MapGet (signalWorkflow rtOnce "eF" "x" (Val.nat 3)).1.db "eF").map
      (fun e => e.steps.map (fun s => s.error)) = some [none] ∧
    (MapGet (startWorkflow rtOnce "wfF" Val.undef "e9").1.db "e9").map
      (fun e => e.status) = some WfStatus.failed := by
  decide
